import Mathlib

/-!
A shallow embedding of the HTTP dispatch and context-propagation layer in
`packages/server/src/server.rs`: the render handler, the server-function
dispatcher (`handle_server_fns_inner`, non-wasm configuration), and the
lazily initialized render-cache handle (`RenderHandleState`).

Header values are modelled as byte lists, header names as canonical
lowercase strings.  The operations of the external `http` crate that the
source calls (`HeaderMap::get`, `HeaderMap::insert`, `HeaderValue::to_str`,
and `HeaderMap::extend` fed by `HeaderMap::drain`) are embedded by their
documented semantics: in particular `extend` inserts the first drained
value of each name (replacing any values that name already had in the
target map) and appends subsequent drained values of the same name.
-/

/-- A header value: a list of bytes, as stored by `http::HeaderValue`. -/
abbrev Bytes := List Nat

/-- A header map: name/value pairs in insertion order.  Names are kept in
canonical lowercase form, mirroring the case-insensitive name handling of
`http::HeaderMap`. -/
abbrev HeaderMap := List (String × Bytes)

/-- `http::HeaderMap::get`: the first value stored for a name. -/
def getHeader (hm : HeaderMap) (n : String) : Option Bytes :=
  match hm with
  | [] => none
  | (m, v) :: t => if m = n then some v else getHeader t n

/-- Remove every value stored for a name. -/
def eraseName (n : String) : HeaderMap → HeaderMap
  | [] => []
  | (m, v) :: t => if m = n then eraseName n t else (m, v) :: eraseName n t

/-- `http::HeaderMap::insert`: replace all values of a name by one value. -/
def insertHeader (n : String) (v : Bytes) (hm : HeaderMap) : HeaderMap :=
  eraseName n hm ++ [(n, v)]

/-- `http::HeaderMap::append`: add one more value for a name. -/
def appendHeader (n : String) (v : Bytes) (hm : HeaderMap) : HeaderMap :=
  hm ++ [(n, v)]

/-- Worker for `extendDrain`: walks the drained pairs, inserting the first
occurrence of each name and appending subsequent occurrences, tracking in
`seen` the names already processed.  This is the documented behaviour of
`HeaderMap::extend` consuming a `Drain` iterator, where the first value of
a name arrives tagged with the name and later values arrive untagged. -/
def extendGo (res : HeaderMap) (ov : HeaderMap) (seen : List String) : HeaderMap :=
  match ov with
  | [] => res
  | (n, v) :: rest =>
      if n ∈ seen then extendGo (appendHeader n v res) rest seen
      else extendGo (insertHeader n v res) rest (n :: seen)

/-- `res.headers_mut().extend(ov.drain())` from the source, by the `http`
crate semantics: per drained name, insert the first value (dropping the
values `res` already had for that name) and append the rest. -/
def extendDrain (res ov : HeaderMap) : HeaderMap :=
  extendGo res ov []

/-- Does the first list occur at the head of the second one? -/
def startsWithB {α : Type} [DecidableEq α] : List α → List α → Bool
  | [], _ => true
  | _ :: _, [] => false
  | a :: as, b :: bs => decide (a = b) && startsWithB as bs

/-- `str::contains` for a literal pattern: does `needle` occur as a
contiguous run inside the second list? -/
def containsSub {α : Type} [DecidableEq α] (needle : List α) : List α → Bool
  | [] => startsWithB needle []
  | b :: t => startsWithB needle (b :: t) || containsSub needle t

/-- `http::HeaderValue::to_str` succeeds exactly on visible ASCII bytes
(32 to 126) and horizontal tab. -/
def isVisibleAscii (b : Nat) : Bool :=
  (decide (32 ≤ b) && decide (b < 127)) || decide (b = 9)

/-- `http::HeaderValue::to_str`: the byte list viewed as a string, or
failure when some byte is not visible ASCII. -/
def toStr (v : Bytes) : Option Bytes :=
  if v.all isVisibleAscii then some v else none

/-- `u8::to_ascii_lowercase` on one byte. -/
def toLowerByte (b : Nat) : Nat :=
  if 65 ≤ b ∧ b ≤ 90 then b + 32 else b

/-- `str::to_ascii_lowercase` on a byte list. -/
def toLowerB (v : Bytes) : Bytes :=
  v.map toLowerByte

/-- The bytes of the literal pattern `text/html`. -/
def textHtml : Bytes := [116, 101, 120, 116, 47, 104, 116, 109, 108]

/-- An HTTP response: status, headers and a textual body. -/
structure Response where
  status : Nat
  headers : HeaderMap
  body : List Char
deriving DecidableEq

/-- An inbound HTTP request, reduced to the parts this layer reads: its
headers.  Method, URI and body pass through untouched. -/
structure Request where
  headers : HeaderMap
deriving DecidableEq

/-- `Response::builder().status(c).body(Body::empty())`: a bare status
response with no headers and an empty body. -/
def mkStatusResponse (c : Nat) : Response :=
  { status := c, headers := [], body := [] }

/-- Modelled from the spec: the error type of the render engine
collaborator (`crate::Error`, repository code outside `src/`): either an
explicit HTTP status or an opaque other error (spec section 6). -/
inductive RenderError where
  | Http : Nat → RenderError
  | Other : RenderError
deriving DecidableEq

/-- `state.respond(request).await.map_err(..)` from `render_handler`: run
the engine once and map its outcome; an explicit `Http` error keeps its
status verbatim, any other error becomes 500, both with empty bodies.  The
second component counts engine invocations. -/
def renderRespond (respond : Request → Except RenderError Response)
    (request : Request) : Response × Nat :=
  (match respond request with
   | Except.ok r => r
   | Except.error (RenderError.Http s) => mkStatusResponse s
   | Except.error RenderError.Other => mkStatusResponse 500, 1)

/-- `render_handler` from the source: requests whose `Accept` header is
present must have a readable value whose ASCII-lowercased form contains
`text/html`, otherwise the handler answers 406 without touching the
engine; the engine collaborator (`SharedServerState::respond`, modelled
from the spec as a request-to-result function) is otherwise invoked once
on the unchanged request. -/
def render_handler (respond : Request → Except RenderError Response)
    (request : Request) : Response × Nat :=
  match getHeader request.headers "accept" with
  | some mime =>
      match Option.map toLowerB (toStr mime) with
      | some accepts =>
          if containsSub textHtml accepts then renderRespond respond request
          else (mkStatusResponse 406, 0)
      | none => (mkStatusResponse 406, 0)
  | none => renderRespond respond request

/-- `accepts_html` from `handle_server_fns_inner` (lines 97 to 102): the
raw `Accept` value, when present and readable, is tested for the literal
substring `text/html` with no case folding. -/
def acceptsHtml (req : Request) : Bool :=
  match getHeader req.headers "accept" with
  | some v =>
      match toStr v with
      | some s => containsSub textHtml s
      | none => false
  | none => false

/-- Modelled from the spec: the mutable response-overrides record of the
Request Context (`DioxusServerContext` / `response_parts`, repository code
outside `src/`): an optional status override plus an ordered header
mapping (spec section 3).  The dispatcher in the source reads only the
header part of this record. -/
structure ResponseOverrides where
  status : Option Nat
  headers : HeaderMap
deriving DecidableEq

/-- The overrides record of a freshly built Request Context: no status
override, no accumulated headers. -/
def freshOverrides : ResponseOverrides :=
  { status := none, headers := [] }

/-- Modelled from the spec: a registered procedure executed inside
Context-Scoped Execution (spec sections 4.4 and 6).  The ambient mutable
context is embedded as explicit state passing: the procedure receives the
overrides record left by the provider hook and returns its response
together with the overrides record as it stands when execution finishes. -/
abbrev SFnService := Request → ResponseOverrides → Response × ResponseOverrides

/-- The redirect heuristic of `handle_server_fns_inner` (lines 110 to
118): when the original request accepted HTML and carried a referrer, and
the procedure response carries no `location` header yet, the response is
rewritten to status 302 with `location` set to the referrer. -/
def redirectStep (accepts : Bool) (referrer : Option Bytes) (res : Response) : Response :=
  if accepts then
    match referrer with
    | some r =>
        if (getHeader res.headers "location").isSome then res
        else { res with status := 302, headers := insertHeader "location" r res.headers }
    | none => res
  else res

/-- The merge step of `handle_server_fns_inner` (lines 121 to 122): drain
the headers accumulated in the context overrides into the response header
map.  The status field of the overrides is not consulted. -/
def mergeStep (res : Response) (ctx : ResponseOverrides) : Response :=
  { res with headers := extendDrain res.headers ctx.headers }

/-- Ghost observations of one dispatch: whether a Request Context was
constructed, and how many times the provider hook and the resolved
procedure ran. -/
structure DispatchTrace where
  contextBuilt : Bool
  hookCalls : Nat
  serviceCalls : Nat
deriving DecidableEq

/-- The text preceding the path in the unknown-path diagnostic (non-wasm
branch of the source). -/
def badRequestPre : String := "No server function found for path: "

/-- The text following the path in the unknown-path diagnostic (non-wasm
branch of the source). -/
def badRequestSuf : String :=
  "\nYou may need to rebuild your wasm binary to update a server function link or make sure the prefix your server and client use for server functions match."

/-- The diagnostic body built for an unknown procedure path. -/
def badRequestBody (path : String) : List Char :=
  badRequestPre.data ++ path.data ++ badRequestSuf.data

/-- `handle_server_fns_inner` from the source (non-wasm configuration),
with a ghost trace.  The registry (`server_fn::axum::get_server_fn_service`)
and the provider hook are parameters; a registry hit builds a fresh
context, runs the hook on it, snapshots `accepts_html` and the referrer,
runs the procedure, applies the redirect heuristic and then the header
merge.  A registry miss answers 400 with a diagnostic naming the path and
builds no context. -/
def handle_server_fns_inner (path : String) (registry : String → Option SFnService)
    (additional_context : ResponseOverrides → ResponseOverrides)
    (req : Request) : Response × DispatchTrace :=
  match registry path with
  | some service =>
      match service req (additional_context freshOverrides) with
      | (res, ctx2) =>
          (mergeStep
              (redirectStep (acceptsHtml req) (getHeader req.headers "referer") res)
              ctx2,
            { contextBuilt := true, hookCalls := 1, serviceCalls := 1 })
  | none =>
      ({ status := 400, headers := [], body := badRequestBody path },
        { contextBuilt := false, hookCalls := 0, serviceCalls := 0 })

/-- Modelled from the spec: the opaque incremental-render
sub-configuration of the server configuration (spec sections 3 and 4.2). -/
structure IncrementalRendererConfig where
  token : Nat
deriving DecidableEq

/-- Modelled from the spec: the server configuration, reduced to the only
field the embedded operations read, its incremental-render
sub-configuration. -/
structure ServeConfig where
  incremental : IncrementalRendererConfig
deriving DecidableEq

/-- Modelled from the spec: the incremental-rendering engine, determined
by the incremental-render configuration it was built from
(`SsrRenderer::shared`, repository code outside `src/`). -/
structure SsrRenderer where
  incremental : IncrementalRendererConfig
deriving DecidableEq

/-- `SsrRenderer::shared(cfg)`: build the shared engine from the
incremental-render configuration. -/
def SsrRenderer.shared (cfg : IncrementalRendererConfig) : SsrRenderer :=
  { incremental := cfg }

/-- Modelled from the spec: an opaque fresh UI-tree instance (spec
section 6); its contents play no role in the embedded operations. -/
structure VirtualDom where
  token : Nat

/-- `once_cell::sync::OnceCell`, by its contract: a cell holding at most
one value.  Its operations below are atomic, which is exactly the
exactly-once guarantee the crate documents; an interleaving of concurrent
calls is therefore equivalent to some sequential order of these atomic
steps. -/
structure OnceCell (α : Type) where
  value : Option α
deriving DecidableEq

/-- `OnceCell::new`: an empty cell. -/
def OnceCell.new {α : Type} : OnceCell α :=
  { value := none }

/-- `OnceCell::set`: store a value in an empty cell, or fail when the cell
is already filled. -/
def OnceCell.set {α : Type} (c : OnceCell α) (x : α) : Except Unit (OnceCell α) :=
  match c.value with
  | some _ => Except.error ()
  | none => Except.ok { value := some x }

/-- `OnceCell::get_or_init` as one atomic step: return the stored value,
or run the initializer, store its result and return it.  The third
component counts how many constructions this step performed. -/
def OnceCell.get_or_init {α : Type} (c : OnceCell α) (f : Unit → α) :
    α × OnceCell α × Nat :=
  match c.value with
  | some e => (e, c, 0)
  | none => (f (), { value := some (f ()) }, 1)

/-- `RenderHandleState` from the source: the serve configuration, the
UI-tree factory, and the lazily initialized engine cell. -/
structure RenderHandleState where
  config : ServeConfig
  build_virtual_dom : Unit → VirtualDom
  ssr_state_cell : OnceCell SsrRenderer

/-- `RenderHandleState::new`: fresh state around a configuration and a
root factory, with an empty engine cell. -/
def RenderHandleState.new (config : ServeConfig) (root : Unit → VirtualDom) :
    RenderHandleState :=
  { config := config, build_virtual_dom := root, ssr_state_cell := OnceCell.new }

/-- `RenderHandleState::with_ssr_state` from the source, line for line:
the field is first overwritten with a fresh empty cell, then `set` is
attempted on that fresh cell; its failure branch raises the fatal
`SSRState already set` abort, embedded as the error case. -/
def RenderHandleState.with_ssr_state (s : RenderHandleState) (ssr : SsrRenderer) :
    Except String RenderHandleState :=
  let s1 : RenderHandleState := { s with ssr_state_cell := OnceCell.new }
  match s1.ssr_state_cell.set ssr with
  | Except.error _ => Except.error "SSRState already set"
  | Except.ok c => Except.ok { s1 with ssr_state_cell := c }

/-- `RenderHandleState::ssr_state` from the source: one atomic
`get_or_init` building the engine from the incremental configuration, with
the resulting state and a ghost construction count. -/
def RenderHandleState.ssr_state (s : RenderHandleState) :
    SsrRenderer × RenderHandleState × Nat :=
  match s.ssr_state_cell.get_or_init
      (fun _ => SsrRenderer.shared s.config.incremental) with
  | (e, c, k) => (e, { s with ssr_state_cell := c }, k)

/-- `n` calls of `ssr_state` against one handle, each call being one
atomic `get_or_init` step: the list of engines the callers received, the
final state, and the total number of constructions.  Because every call is
a single atomic step of identical calls, any concurrent interleaving of
`n` first requests is equivalent to this sequence. -/
def run_ssr_calls : Nat → RenderHandleState → List SsrRenderer × RenderHandleState × Nat
  | 0, s => ([], s, 0)
  | Nat.succ n, s =>
      match s.ssr_state with
      | (e, s1, k) =>
          match run_ssr_calls n s1 with
          | (es, s2, k2) => (e :: es, s2, k + k2)

/-- The bytes of `/f`, a referrer value. -/
def refBytes : Bytes := [47, 102]

/-- The bytes of `/o`, a location value set by a procedure response. -/
def locOther : Bytes := [47, 111]

/-- The bytes of `/3`, a location value accumulated in context overrides. -/
def locThird : Bytes := [47, 51]

/-- The bytes of `1`, a header value set by a procedure response. -/
def bX1 : Bytes := [49]

/-- The bytes of `2`, a header value accumulated in context overrides. -/
def bX2 : Bytes := [50]

/-- The bytes of `TEXT/HTML`: visible ASCII, but not containing the
lowercase literal `text/html`. -/
def upperTextHtml : Bytes := [84, 69, 88, 84, 47, 72, 84, 77, 76]

/-- An `Accept` value whose bytes contain `text/html` followed by the
byte 200, which is not visible ASCII, so `to_str` fails on it. -/
def badAcceptBytes : Bytes := textHtml ++ [200]

/-- The bytes of `application/json`. -/
def jsonBytes : Bytes :=
  [97, 112, 112, 108, 105, 99, 97, 116, 105, 111, 110, 47, 106, 115, 111, 110]

/-- A form-post style request: accepts `text/html` and carries a referrer. -/
def reqForm : Request := { headers := [("accept", textHtml), ("referer", refBytes)] }

/-- A request with no headers at all. -/
def reqPlain : Request := { headers := [] }

/-- A request whose `Accept` value is `TEXT/HTML`. -/
def reqUpper : Request := { headers := [("accept", upperTextHtml)] }

/-- A request whose `Accept` value is unreadable (contains byte 200). -/
def reqBadAccept : Request := { headers := [("accept", badAcceptBytes)] }

/-- A request whose `Accept` value is `application/json`. -/
def reqJson : Request := { headers := [("accept", jsonBytes)] }

/-- A request whose `Accept` value is exactly `text/html`. -/
def reqHtmlOnly : Request := { headers := [("accept", textHtml)] }

/-- A render engine that always succeeds with a bare 200 response. -/
def okEngine : Request → Except RenderError Response :=
  fun _ => Except.ok (mkStatusResponse 200)

/-- A render engine that always fails with an explicit 418 status. -/
def teapotEngine : Request → Except RenderError Response :=
  fun _ => Except.error (RenderError.Http 418)

/-- A procedure response carrying one custom header `x` and no location. -/
def resForm : Response := { status := 200, headers := [("x", bX1)], body := [] }

/-- Context overrides accumulating a same-named `x` header and a
`location` header. -/
def ctxForm : ResponseOverrides :=
  { status := none, headers := [("x", bX2), ("location", locThird)] }

/-- A procedure that returns `resForm` and leaves `ctxForm` in the
context overrides. -/
def svcForm : SFnService := fun _ _ => (resForm, ctxForm)

/-- A registry holding only `svcForm` under the path `proc`. -/
def regForm : String → Option SFnService :=
  fun p => if p = "proc" then some svcForm else none

/-- A procedure response that already sets its own `location` header. -/
def resLoc : Response := { status := 201, headers := [("location", locOther)], body := [] }

/-- Context overrides accumulating a `location` header. -/
def ctxLoc : ResponseOverrides := { status := none, headers := [("location", locThird)] }

/-- A procedure that sets its own location and also accumulates a
`location` override in the context. -/
def svcLoc : SFnService := fun _ _ => (resLoc, ctxLoc)

/-- A registry holding only `svcLoc` under the path `proc`. -/
def regLoc : String → Option SFnService :=
  fun p => if p = "proc" then some svcLoc else none

/-- Context overrides setting only the status override, to 418. -/
def ctxStatus : ResponseOverrides := { status := some 418, headers := [] }

/-- A procedure that answers 200 and sets the context status override. -/
def svcStatus : SFnService := fun _ _ => (mkStatusResponse 200, ctxStatus)

/-- A registry holding only `svcStatus` under the path `proc`. -/
def regStatus : String → Option SFnService :=
  fun p => if p = "proc" then some svcStatus else none

/-- A bare 200 procedure response with no headers. -/
def resPlain : Response := { status := 200, headers := [], body := [] }

/-- Context overrides accumulating one header `y`, no location. -/
def ctxPlain : ResponseOverrides := { status := none, headers := [("y", bX2)] }

/-- A procedure that answers `resPlain` and accumulates `ctxPlain`. -/
def svcPlain : SFnService := fun _ _ => (resPlain, ctxPlain)

/-- A registry holding only `svcPlain` under the path `proc`. -/
def regPlain : String → Option SFnService :=
  fun p => if p = "proc" then some svcPlain else none

/-- A procedure that sets its own location and accumulates nothing. -/
def svcLocClean : SFnService := fun _ _ => (resLoc, freshOverrides)

/-- A registry holding only `svcLocClean` under the path `proc`. -/
def regLocClean : String → Option SFnService :=
  fun p => if p = "proc" then some svcLocClean else none

/-- A concrete serve configuration. -/
def cfgW : ServeConfig := { incremental := { token := 5 } }

/-- A concrete UI-tree factory. -/
def rootW : Unit → VirtualDom := fun _ => { token := 0 }

/-- An engine already stored in a handle. -/
def engOld : SsrRenderer := { incremental := { token := 1 } }

/-- A replacement engine supplied to `with_ssr_state`. -/
def engNew : SsrRenderer := { incremental := { token := 2 } }

/-- A handle whose engine cell already holds `engOld`. -/
def presetHandle : RenderHandleState :=
  { config := cfgW, build_virtual_dom := rootW,
    ssr_state_cell := { value := some engOld } }

/-- Appending on the right does not change a successful lookup. -/
theorem getHeader_append_some (l1 l2 : HeaderMap) (n : String) (v : Bytes)
    (h : getHeader l1 n = some v) : getHeader (l1 ++ l2) n = some v := by
  induction l1 with
  | nil => simp [getHeader] at h
  | cons p t ih =>
      obtain ⟨m, w⟩ := p
      by_cases hm : m = n
      · simp only [getHeader, if_pos hm] at h
        simp only [List.cons_append, getHeader, if_pos hm]
        exact h
      · simp only [getHeader, if_neg hm] at h
        simp only [List.cons_append, getHeader, if_neg hm]
        exact ih h

/-- A failed lookup falls through an appended prefix. -/
theorem getHeader_append_none (l1 l2 : HeaderMap) (n : String)
    (h : getHeader l1 n = none) : getHeader (l1 ++ l2) n = getHeader l2 n := by
  induction l1 with
  | nil => rfl
  | cons p t ih =>
      obtain ⟨m, w⟩ := p
      by_cases hm : m = n
      · simp [getHeader, if_pos hm] at h
      · simp only [getHeader, if_neg hm] at h
        simp only [List.cons_append, getHeader, if_neg hm]
        exact ih h

/-- After erasing a name, looking that name up fails. -/
theorem getHeader_eraseName_self (n : String) (l : HeaderMap) :
    getHeader (eraseName n l) n = none := by
  induction l with
  | nil => rfl
  | cons p t ih =>
      obtain ⟨m, v⟩ := p
      by_cases hm : m = n
      · simpa [eraseName, if_pos hm] using ih
      · simp only [eraseName, if_neg hm, getHeader]
        simpa [if_neg hm] using ih

/-- Erasing one name leaves lookups of other names unchanged. -/
theorem getHeader_eraseName_ne (n q : String) (l : HeaderMap) (h : q ≠ n) :
    getHeader (eraseName n l) q = getHeader l q := by
  induction l with
  | nil => rfl
  | cons p t ih =>
      obtain ⟨m, v⟩ := p
      by_cases hm : m = n
      · have hmq : ¬ m = q := fun hq => h (hq ▸ hm)
        simp only [eraseName, if_pos hm, getHeader, if_neg hmq]
        exact ih
      · by_cases hmq : m = q
        · simp [eraseName, if_neg hm, getHeader, if_pos hmq]
        · simp only [eraseName, if_neg hm, getHeader, if_neg hmq]
          exact ih

/-- `insert` makes its own value the one a lookup returns. -/
theorem getHeader_insertHeader_self (n : String) (v : Bytes) (l : HeaderMap) :
    getHeader (insertHeader n v l) n = some v := by
  unfold insertHeader
  rw [getHeader_append_none _ _ _ (getHeader_eraseName_self n l)]
  simp [getHeader]

/-- `insert` of one name leaves lookups of other names unchanged. -/
theorem getHeader_insertHeader_ne (n q : String) (v : Bytes) (l : HeaderMap)
    (h : q ≠ n) : getHeader (insertHeader n v l) q = getHeader l q := by
  unfold insertHeader
  cases hc : getHeader (eraseName n l) q with
  | none =>
      rw [getHeader_append_none _ _ _ hc]
      rw [getHeader_eraseName_ne n q l h] at hc
      have hnq : ¬ n = q := fun hq => h hq.symm
      simp [getHeader, if_neg hnq, hc]
  | some w =>
      rw [getHeader_append_some _ _ _ _ hc]
      rw [getHeader_eraseName_ne n q l h] at hc
      exact hc.symm

/-- `append` of one name leaves lookups of other names unchanged. -/
theorem getHeader_appendHeader_ne (n q : String) (v : Bytes) (l : HeaderMap)
    (h : q ≠ n) : getHeader (appendHeader n v l) q = getHeader l q := by
  unfold appendHeader
  cases hc : getHeader l q with
  | none =>
      rw [getHeader_append_none _ _ _ hc]
      have hnq : ¬ n = q := fun hq => h hq.symm
      simp [getHeader, if_neg hnq]
  | some w => exact getHeader_append_some _ _ _ _ hc

/-- Erasing a different name keeps a pair in the map. -/
theorem mem_eraseName_of_ne (n q : String) (v : Bytes) (l : HeaderMap)
    (hm : (q, v) ∈ l) (h : q ≠ n) : (q, v) ∈ eraseName n l := by
  induction l with
  | nil => cases hm
  | cons p t ih =>
      obtain ⟨m, w⟩ := p
      by_cases hmn : m = n
      · simp only [eraseName, if_pos hmn]
        rcases List.mem_cons.mp hm with heq | ht
        · exfalso
          have hqm : q = m := congrArg Prod.fst heq
          exact h (hqm ▸ hmn)
        · exact ih ht
      · simp only [eraseName, if_neg hmn]
        rcases List.mem_cons.mp hm with heq | ht
        · rw [heq]
          exact List.mem_cons_self _ _
        · exact List.mem_cons_of_mem _ (ih ht)

/-- The merge leaves lookups of names that do not occur among the drained
pairs unchanged. -/
theorem getHeader_extendGo_notin (q : String) (ov : HeaderMap) :
    ∀ (res : HeaderMap) (seen : List String), q ∉ ov.map Prod.fst →
      getHeader (extendGo res ov seen) q = getHeader res q := by
  induction ov with
  | nil => intro res seen _; rfl
  | cons p rest ih =>
      intro res seen h
      obtain ⟨n, v⟩ := p
      rw [List.map_cons, List.mem_cons] at h
      push_neg at h
      obtain ⟨hqn, hrest⟩ := h
      by_cases hs : n ∈ seen
      · rw [extendGo, if_pos hs, ih _ _ hrest]
        exact getHeader_appendHeader_ne n q v res hqn
      · rw [extendGo, if_neg hs, ih _ _ hrest]
        exact getHeader_insertHeader_ne n q v res hqn

/-- A pair already present in the target survives the rest of the merge,
provided its name was already processed. -/
theorem mem_extendGo_stable (q : String) (v : Bytes) (ov : HeaderMap) :
    ∀ (res : HeaderMap) (seen : List String), (q, v) ∈ res → q ∈ seen →
      (q, v) ∈ extendGo res ov seen := by
  induction ov with
  | nil => intro res seen hmem _; exact hmem
  | cons p rest ih =>
      intro res seen hmem hseen
      obtain ⟨n, w⟩ := p
      by_cases hs : n ∈ seen
      · rw [extendGo, if_pos hs]
        exact ih _ _ (List.mem_append_left _ hmem) hseen
      · rw [extendGo, if_neg hs]
        have hqn : q ≠ n := fun hq => hs (hq ▸ hseen)
        refine ih _ _ ?_ (List.mem_cons_of_mem _ hseen)
        exact List.mem_append_left _ (mem_eraseName_of_ne n q v res hmem hqn)

/-- Every drained pair ends up in the merged header map. -/
theorem mem_extendGo_of_mem (q : String) (v : Bytes) (ov : HeaderMap) :
    ∀ (res : HeaderMap) (seen : List String), (q, v) ∈ ov →
      (q, v) ∈ extendGo res ov seen := by
  induction ov with
  | nil => intro res seen hmem; cases hmem
  | cons p rest ih =>
      intro res seen hmem
      obtain ⟨n, w⟩ := p
      rcases List.mem_cons.mp hmem with heq | ht
      · have hq : q = n := congrArg Prod.fst heq
        have hv : v = w := congrArg Prod.snd heq
        subst hq
        subst hv
        by_cases hs : q ∈ seen
        · rw [extendGo, if_pos hs]
          exact mem_extendGo_stable q v rest _ seen (by simp [appendHeader]) hs
        · rw [extendGo, if_neg hs]
          exact mem_extendGo_stable q v rest _ _ (by simp [insertHeader])
            (List.mem_cons_self _ _)
      · by_cases hs : n ∈ seen
        · rw [extendGo, if_pos hs]
          exact ih _ _ ht
        · rw [extendGo, if_neg hs]
          exact ih _ _ ht

/-- `extendDrain` leaves names absent from the drained map unchanged. -/
theorem getHeader_extendDrain_notin (q : String) (res ov : HeaderMap)
    (h : q ∉ ov.map Prod.fst) : getHeader (extendDrain res ov) q = getHeader res q :=
  getHeader_extendGo_notin q ov res [] h

/-- Every drained pair is present after `extendDrain`. -/
theorem mem_extendDrain_of_mem (q : String) (v : Bytes) (res ov : HeaderMap)
    (h : (q, v) ∈ ov) : (q, v) ∈ extendDrain res ov :=
  mem_extendGo_of_mem q v ov res [] h

/-- A list is a prefix of itself followed by anything. -/
theorem startsWithB_self_append {α : Type} [DecidableEq α] (s t : List α) :
    startsWithB s (s ++ t) = true := by
  induction s with
  | nil => rfl
  | cons a as ih => simp [startsWithB, ih]

/-- A leading occurrence is an occurrence. -/
theorem containsSub_of_startsWithB {α : Type} [DecidableEq α] (s l : List α)
    (h : startsWithB s l = true) : containsSub s l = true := by
  cases l with
  | nil => exact h
  | cons b t => rw [containsSub, h, Bool.true_or]

/-- An occurrence survives one more leading element. -/
theorem containsSub_cons {α : Type} [DecidableEq α] (s : List α) (b : α) (t : List α)
    (h : containsSub s t = true) : containsSub s (b :: t) = true := by
  rw [containsSub, h, Bool.or_true]

/-- A list embedded between two others occurs in the concatenation. -/
theorem containsSub_append_sub {α : Type} [DecidableEq α] (a s b : List α) :
    containsSub s (a ++ (s ++ b)) = true := by
  induction a with
  | nil => simpa using containsSub_of_startsWithB s (s ++ b) (startsWithB_self_append s b)
  | cons c cs ih => simpa using containsSub_cons s c (cs ++ (s ++ b)) ih

/-- The redirect heuristic leaves a response that already carries a
location header untouched, whatever the accept flag and referrer are. -/
theorem redirectStep_of_location (acc : Bool) (ref : Option Bytes) (res : Response)
    (lv : Bytes) (hloc : getHeader res.headers "location" = some lv) :
    redirectStep acc ref res = res := by
  unfold redirectStep
  cases acc with
  | false => simp
  | true =>
      cases ref with
      | none => simp
      | some r => simp [hloc]

/-- On a registry hit, one dispatch is the redirect heuristic followed by
the header merge, applied to what the procedure produced. -/
theorem handle_eq_of_run (path : String) (registry : String → Option SFnService)
    (hook : ResponseOverrides → ResponseOverrides) (req : Request)
    (service : SFnService) (res0 : Response) (ctx2 : ResponseOverrides)
    (hreg : registry path = some service)
    (hrun : service req (hook freshOverrides) = (res0, ctx2)) :
    handle_server_fns_inner path registry hook req =
      (mergeStep (redirectStep (acceptsHtml req) (getHeader req.headers "referer") res0)
          ctx2,
        { contextBuilt := true, hookCalls := 1, serviceCalls := 1 }) := by
  simp only [handle_server_fns_inner, hreg, hrun]

/-- Claim C1, counterexample.  A dispatch in which the request accepts
`text/html` and carries the referrer `/f`, and the procedure response sets
no location header, yet the final location header is the one accumulated
in the context overrides, not the captured referrer: the claimed equality
of the final location with the referrer fails. -/
theorem c1_counterexample :
    acceptsHtml reqForm = true ∧
    getHeader reqForm.headers "referer" = some refBytes ∧
    getHeader (svcForm reqForm (id freshOverrides)).1.headers "location" = none ∧
    (handle_server_fns_inner "proc" regForm id reqForm).1.status = 302 ∧
    getHeader (handle_server_fns_inner "proc" regForm id reqForm).1.headers "location" =
      some locThird ∧
    locThird ≠ refBytes := by
  decide

/-- Claim C1, amended.  For a dispatched request whose dispatcher-side
accepts-HTML test holds (readable `Accept` value containing `text/html`,
case-sensitively) and that carries a referrer, if the procedure response
has no location header, the final response has status 302; and provided
the context overrides accumulated no location header of their own, the
final location header equals the captured referrer. -/
theorem c1_amended_thm (path : String) (registry : String → Option SFnService)
    (hook : ResponseOverrides → ResponseOverrides) (req : Request)
    (service : SFnService) (res0 : Response) (ctx2 : ResponseOverrides) (r : Bytes)
    (hreg : registry path = some service)
    (hacc : acceptsHtml req = true)
    (href : getHeader req.headers "referer" = some r)
    (hrun : service req (hook freshOverrides) = (res0, ctx2))
    (hnoloc : getHeader res0.headers "location" = none)
    (hovloc : "location" ∉ ctx2.headers.map Prod.fst) :
    (handle_server_fns_inner path registry hook req).1.status = 302 ∧
    getHeader (handle_server_fns_inner path registry hook req).1.headers "location" =
      some r := by
  rw [handle_eq_of_run path registry hook req service res0 ctx2 hreg hrun]
  have hred : redirectStep (acceptsHtml req) (getHeader req.headers "referer") res0 =
      { res0 with status := 302, headers := insertHeader "location" r res0.headers } := by
    simp [redirectStep, hacc, href, hnoloc]
  constructor
  · show (mergeStep (redirectStep (acceptsHtml req) (getHeader req.headers "referer") res0)
        ctx2).status = 302
    rw [hred]
    rfl
  · show getHeader (mergeStep (redirectStep (acceptsHtml req)
        (getHeader req.headers "referer") res0) ctx2).headers "location" = some r
    rw [hred]
    show getHeader (extendDrain (insertHeader "location" r res0.headers) ctx2.headers)
      "location" = some r
    rw [getHeader_extendDrain_notin _ _ _ hovloc]
    exact getHeader_insertHeader_self _ _ _

/-- Claim C1, witness for the amended theorem at a concrete dispatch. -/
theorem c1_witness :
    (handle_server_fns_inner "proc" regPlain id reqForm).1.status = 302 ∧
    getHeader (handle_server_fns_inner "proc" regPlain id reqForm).1.headers "location" =
      some refBytes :=
  c1_amended_thm "proc" regPlain id reqForm svcPlain resPlain ctxPlain refBytes
    rfl (by decide) (by decide) rfl (by decide) (by decide)

/-- Claim C2, counterexample.  A dispatch in which the context overrides
accumulated a header `x` whose name the procedure response also set, and a
`location` header: the merge drops the response value of `x` (it replaces,
it does not append beside it), and the location header that the redirect
heuristic had set to the referrer is overwritten by the override value. -/
theorem c2_counterexample :
    ("x", bX1) ∈ (svcForm reqForm (id freshOverrides)).1.headers ∧
    ("x", bX1) ∉ (handle_server_fns_inner "proc" regForm id reqForm).1.headers ∧
    getHeader (handle_server_fns_inner "proc" regForm id reqForm).1.headers "x" =
      some bX2 ∧
    getHeader (handle_server_fns_inner "proc" regForm id reqForm).1.headers "location" =
      some locThird ∧
    locThird ≠ refBytes := by
  decide

/-- Claim C2, amended.  Every header pair accumulated in the context
overrides appears in the final response; for header names that do not
occur among the overrides, the merge leaves the post-heuristic response
lookups unchanged; and the merge runs strictly after the redirect
heuristic and never changes the status — but for a name the overrides do
contain, the merge replaces the response values of that name (first value
insert, later values append), so it can overwrite a heuristic-set
location header. -/
theorem c2_amended_thm (path : String) (registry : String → Option SFnService)
    (hook : ResponseOverrides → ResponseOverrides) (req : Request)
    (service : SFnService) (res0 : Response) (ctx2 : ResponseOverrides)
    (hreg : registry path = some service)
    (hrun : service req (hook freshOverrides) = (res0, ctx2)) :
    (∀ q v, (q, v) ∈ ctx2.headers →
        (q, v) ∈ (handle_server_fns_inner path registry hook req).1.headers) ∧
    (∀ q, q ∉ ctx2.headers.map Prod.fst →
        getHeader (handle_server_fns_inner path registry hook req).1.headers q =
          getHeader (redirectStep (acceptsHtml req) (getHeader req.headers "referer")
            res0).headers q) ∧
    (handle_server_fns_inner path registry hook req).1.status =
      (redirectStep (acceptsHtml req) (getHeader req.headers "referer") res0).status := by
  rw [handle_eq_of_run path registry hook req service res0 ctx2 hreg hrun]
  refine ⟨?_, ?_, rfl⟩
  · intro q v hmem
    exact mem_extendDrain_of_mem q v _ _ hmem
  · intro q hq
    exact getHeader_extendDrain_notin q _ _ hq

/-- Claim C2, witness for the amended theorem at a concrete dispatch: the
override pair survives into the final response. -/
theorem c2_witness :
    ("x", bX2) ∈ (handle_server_fns_inner "proc" regForm id reqForm).1.headers :=
  (c2_amended_thm "proc" regForm id reqForm svcForm resForm ctxForm rfl rfl).1
    "x" bX2 (by decide)

/-- Claim C4.  A dispatch whose path misses the registry answers 400, the
body contains the requested path literally, and no Request Context is
built nor the provider hook invoked on this path. -/
theorem c4_unknown_path (path : String) (registry : String → Option SFnService)
    (hook : ResponseOverrides → ResponseOverrides) (req : Request)
    (hreg : registry path = none) :
    (handle_server_fns_inner path registry hook req).1.status = 400 ∧
    containsSub path.data (handle_server_fns_inner path registry hook req).1.body = true ∧
    (handle_server_fns_inner path registry hook req).2.contextBuilt = false ∧
    (handle_server_fns_inner path registry hook req).2.hookCalls = 0 := by
  have hres : handle_server_fns_inner path registry hook req =
      ({ status := 400, headers := [], body := badRequestBody path },
        { contextBuilt := false, hookCalls := 0, serviceCalls := 0 }) := by
    simp only [handle_server_fns_inner, hreg]
  rw [hres]
  refine ⟨rfl, ?_, rfl, rfl⟩
  show containsSub path.data (badRequestBody path) = true
  unfold badRequestBody
  rw [List.append_assoc]
  exact containsSub_append_sub _ _ _

/-- Claim C4, witness at a concrete missing path. -/
theorem c4_witness :
    (handle_server_fns_inner "missing" (fun _ => none) id reqPlain).1.status = 400 ∧
    containsSub "missing".data
      (handle_server_fns_inner "missing" (fun _ => none) id reqPlain).1.body = true ∧
    (handle_server_fns_inner "missing" (fun _ => none) id reqPlain).2.contextBuilt =
      false ∧
    (handle_server_fns_inner "missing" (fun _ => none) id reqPlain).2.hookCalls = 0 :=
  c4_unknown_path "missing" (fun _ => none) id reqPlain rfl

/-- Claim C7, counterexample.  A dispatch whose procedure sets the context
status override to 418 while its own response has status 200: the final
status is 200, the override is ignored. -/
theorem c7_counterexample :
    (svcStatus reqPlain (id freshOverrides)).2.status = some 418 ∧
    (handle_server_fns_inner "proc" regStatus id reqPlain).1.status = 200 ∧
    (200 : Nat) ≠ 418 := by
  decide

/-- Claim C7, amended.  The dispatcher never reads the status field of the
context overrides: for every dispatch that resolves its procedure, the
final status is exactly the status after the redirect heuristic, that is
the status of the procedure response or 302 when the heuristic fires,
whatever the overrides status holds. -/
theorem c7_amended_thm (path : String) (registry : String → Option SFnService)
    (hook : ResponseOverrides → ResponseOverrides) (req : Request)
    (service : SFnService) (res0 : Response) (ctx2 : ResponseOverrides)
    (hreg : registry path = some service)
    (hrun : service req (hook freshOverrides) = (res0, ctx2)) :
    (handle_server_fns_inner path registry hook req).1.status =
      (redirectStep (acceptsHtml req) (getHeader req.headers "referer") res0).status := by
  rw [handle_eq_of_run path registry hook req service res0 ctx2 hreg hrun]
  rfl

/-- Claim C7, witness for the amended theorem at a concrete dispatch. -/
theorem c7_witness :
    (handle_server_fns_inner "proc" regStatus id reqPlain).1.status =
      (redirectStep (acceptsHtml reqPlain) (getHeader reqPlain.headers "referer")
        (mkStatusResponse 200)).status :=
  c7_amended_thm "proc" regStatus id reqPlain svcStatus (mkStatusResponse 200) ctxStatus
    rfl rfl

/-- Claim C9, counterexample.  A dispatch in which the procedure response
already sets its own location `/o`, yet the final response carries the
location accumulated in the context overrides instead: the final response
does not keep the location the procedure set. -/
theorem c9_counterexample :
    acceptsHtml reqForm = true ∧
    getHeader reqForm.headers "referer" = some refBytes ∧
    getHeader (svcLoc reqForm (id freshOverrides)).1.headers "location" = some locOther ∧
    (handle_server_fns_inner "proc" regLoc id reqForm).1.status = 201 ∧
    getHeader (handle_server_fns_inner "proc" regLoc id reqForm).1.headers "location" =
      some locThird ∧
    locThird ≠ locOther := by
  decide

/-- Claim C9, amended.  When the procedure response already carries a
location header, the redirect heuristic leaves the response completely
unchanged and the final status is the one the procedure set; and provided
the context overrides accumulated no location header, the final location
header is the one the procedure set. -/
theorem c9_amended_thm (path : String) (registry : String → Option SFnService)
    (hook : ResponseOverrides → ResponseOverrides) (req : Request)
    (service : SFnService) (res0 : Response) (ctx2 : ResponseOverrides) (lv : Bytes)
    (hreg : registry path = some service)
    (hrun : service req (hook freshOverrides) = (res0, ctx2))
    (hloc : getHeader res0.headers "location" = some lv)
    (hovloc : "location" ∉ ctx2.headers.map Prod.fst) :
    redirectStep (acceptsHtml req) (getHeader req.headers "referer") res0 = res0 ∧
    (handle_server_fns_inner path registry hook req).1.status = res0.status ∧
    getHeader (handle_server_fns_inner path registry hook req).1.headers "location" =
      some lv := by
  have hred := redirectStep_of_location (acceptsHtml req)
    (getHeader req.headers "referer") res0 lv hloc
  rw [handle_eq_of_run path registry hook req service res0 ctx2 hreg hrun]
  refine ⟨hred, ?_, ?_⟩
  · show (mergeStep (redirectStep (acceptsHtml req) (getHeader req.headers "referer") res0)
        ctx2).status = res0.status
    rw [hred]
    rfl
  · show getHeader (mergeStep (redirectStep (acceptsHtml req)
        (getHeader req.headers "referer") res0) ctx2).headers "location" = some lv
    rw [hred]
    show getHeader (extendDrain res0.headers ctx2.headers) "location" = some lv
    rw [getHeader_extendDrain_notin _ _ _ hovloc]
    exact hloc

/-- Claim C9, witness for the amended theorem at a concrete dispatch. -/
theorem c9_witness :
    redirectStep (acceptsHtml reqForm) (getHeader reqForm.headers "referer") resLoc =
      resLoc ∧
    (handle_server_fns_inner "proc" regLocClean id reqForm).1.status = resLoc.status ∧
    getHeader (handle_server_fns_inner "proc" regLocClean id reqForm).1.headers
      "location" = some locOther :=
  c9_amended_thm "proc" regLocClean id reqForm svcLocClean resLoc freshOverrides locOther
    rfl rfl (by decide) (by decide)

/-- Claim C5, counterexample.  The request whose `Accept` value is
`TEXT/HTML` does not contain the literal `text/html`, yet the handler does
not answer 406: the value is lowercased before the test, so the engine is
invoked and its 200 response returned. -/
theorem c5_counterexample :
    getHeader reqUpper.headers "accept" = some upperTextHtml ∧
    containsSub textHtml upperTextHtml = false ∧
    (render_handler okEngine reqUpper).2 = 1 ∧
    (render_handler okEngine reqUpper).1.status = 200 := by
  decide

/-- Claim C5, amended.  A render-path request carrying a readable `Accept`
value whose ASCII-lowercased form does not contain `text/html` is answered
406 and the engine is never invoked. -/
theorem c5_amended_thm (respond : Request → Except RenderError Response) (req : Request)
    (v s : Bytes)
    (hv : getHeader req.headers "accept" = some v)
    (hs : toStr v = some s)
    (hns : containsSub textHtml (toLowerB s) = false) :
    (render_handler respond req).1.status = 406 ∧ (render_handler respond req).2 = 0 := by
  have h : render_handler respond req = (mkStatusResponse 406, 0) := by
    simp [render_handler, hv, hs, hns]
  rw [h]
  exact ⟨rfl, rfl⟩

/-- Claim C5, witness for the amended theorem at `Accept: application/json`. -/
theorem c5_witness :
    (render_handler okEngine reqJson).1.status = 406 ∧
    (render_handler okEngine reqJson).2 = 0 :=
  c5_amended_thm okEngine reqJson jsonBytes jsonBytes (by decide) (by decide) (by decide)

/-- Claim C6, counterexample.  A request whose `Accept` value contains the
bytes of `text/html` followed by byte 200: the value is unreadable, so the
handler answers 406 and the engine is invoked zero times, not once. -/
theorem c6_counterexample :
    containsSub textHtml badAcceptBytes = true ∧
    (render_handler okEngine reqBadAccept).1.status = 406 ∧
    (render_handler okEngine reqBadAccept).2 = 0 := by
  decide

/-- Claim C6, amended.  A render-path request with no `Accept` header, or
with a readable `Accept` value whose lowercased form contains `text/html`,
invokes the engine exactly once on the unchanged request; an engine
success is returned unmodified, an explicit `Http` failure status is
returned verbatim, and any other failure yields 500, both failures with
empty bodies. -/
theorem c6_amended_thm (respond : Request → Except RenderError Response) (req : Request)
    (h : getHeader req.headers "accept" = none ∨
      ∃ v s, getHeader req.headers "accept" = some v ∧ toStr v = some s ∧
        containsSub textHtml (toLowerB s) = true) :
    (render_handler respond req).2 = 1 ∧
    (∀ r, respond req = Except.ok r → (render_handler respond req).1 = r) ∧
    (∀ s, respond req = Except.error (RenderError.Http s) →
        (render_handler respond req).1 = mkStatusResponse s) ∧
    (respond req = Except.error RenderError.Other →
        (render_handler respond req).1 = mkStatusResponse 500) := by
  have hr : render_handler respond req = renderRespond respond req := by
    rcases h with hnone | ⟨v, s, hv, hs, hc⟩
    · simp [render_handler, hnone]
    · simp [render_handler, hv, hs, hc]
  rw [hr]
  refine ⟨rfl, ?_, ?_, ?_⟩
  · intro r hrr
    simp [renderRespond, hrr]
  · intro s hrr
    simp [renderRespond, hrr]
  · intro hrr
    simp [renderRespond, hrr]

/-- Claim C6, witness for the amended theorem: `Accept: text/html` with an
engine failing with explicit status 418. -/
theorem c6_witness :
    (render_handler teapotEngine reqHtmlOnly).2 = 1 ∧
    (render_handler teapotEngine reqHtmlOnly).1 = mkStatusResponse 418 := by
  have h := c6_amended_thm teapotEngine reqHtmlOnly
    (Or.inr ⟨textHtml, textHtml, by decide, by decide, by decide⟩)
  exact ⟨h.1, h.2.2.1 418 rfl⟩

/-- Claim C10.  First, a render-path request whose `Accept` value is
present but unreadable (some byte outside visible ASCII) is answered 406
with the engine never invoked.  Second, the render-path test is
case-insensitive: the `TEXT/HTML` request reaches the engine.  Third, the
dispatcher-side accepts-HTML test is case-sensitive: the same `TEXT/HTML`
value fails it. -/
theorem c10_render_accept_details :
    (∀ (respond : Request → Except RenderError Response) (req : Request) (v : Bytes),
        getHeader req.headers "accept" = some v → toStr v = none →
          (render_handler respond req).1.status = 406 ∧
          (render_handler respond req).2 = 0) ∧
    (∀ respond : Request → Except RenderError Response,
        (render_handler respond reqUpper).2 = 1) ∧
    acceptsHtml reqUpper = false := by
  refine ⟨?_, ?_, by decide⟩
  · intro respond req v hv hs
    have h : render_handler respond req = (mkStatusResponse 406, 0) := by
      simp [render_handler, hv, hs]
    rw [h]
    exact ⟨rfl, rfl⟩
  · intro respond
    rfl

/-- Claim C10, witness: the unreadable-value case applied at a concrete
request. -/
theorem c10_witness :
    (render_handler okEngine reqBadAccept).1.status = 406 ∧
    (render_handler okEngine reqBadAccept).2 = 0 :=
  c10_render_accept_details.1 okEngine reqBadAccept badAcceptBytes (by decide) (by decide)

/-- Once the cell holds an engine, further `ssr_state` calls return it,
leave the handle unchanged and construct nothing. -/
theorem run_ssr_calls_filled (e : SsrRenderer) :
    ∀ (n : Nat) (s : RenderHandleState), s.ssr_state_cell = ⟨some e⟩ →
      run_ssr_calls n s = (List.replicate n e, s, 0) := by
  intro n
  induction n with
  | zero =>
      intro s h
      rfl
  | succ m ih =>
      intro s h
      obtain ⟨cfg, root, cell⟩ := s
      have hc : cell = ⟨some e⟩ := h
      subst hc
      have hstep : RenderHandleState.ssr_state ⟨cfg, root, ⟨some e⟩⟩ =
          (e, ⟨cfg, root, ⟨some e⟩⟩, 0) := rfl
      have hrest := ih ⟨cfg, root, ⟨some e⟩⟩ rfl
      simp only [run_ssr_calls, hstep, hrest, List.replicate_succ]

/-- Claim C3.  Against a freshly built handle, any positive number of
`ssr_state` calls — each an atomic `get_or_init` step, so any concurrent
interleaving of first requests is equivalent to such a sequence —
performs exactly one engine construction, every caller receives the
engine built from the incremental-render configuration of the handle, and
the final cell holds that same engine. -/
theorem c3_once_init (cfg : ServeConfig) (root : Unit → VirtualDom) (n : Nat)
    (h : 0 < n) :
    (run_ssr_calls n (RenderHandleState.new cfg root)).2.2 = 1 ∧
    (run_ssr_calls n (RenderHandleState.new cfg root)).1 =
      List.replicate n (SsrRenderer.shared cfg.incremental) ∧
    (run_ssr_calls n (RenderHandleState.new cfg root)).2.1.ssr_state_cell =
      ⟨some (SsrRenderer.shared cfg.incremental)⟩ := by
  obtain ⟨m, rfl⟩ : ∃ m, n = m + 1 := ⟨n - 1, (Nat.succ_pred_eq_of_pos h).symm⟩
  have hstep : (RenderHandleState.new cfg root).ssr_state =
      (SsrRenderer.shared cfg.incremental,
        ⟨cfg, root, ⟨some (SsrRenderer.shared cfg.incremental)⟩⟩, 1) := rfl
  have hrest := run_ssr_calls_filled (SsrRenderer.shared cfg.incremental) m
    ⟨cfg, root, ⟨some (SsrRenderer.shared cfg.incremental)⟩⟩ rfl
  simp only [run_ssr_calls, hstep, hrest, List.replicate_succ]
  refine ⟨?_, ?_, ?_⟩ <;> simp

/-- Claim C3, witness: three calls against a fresh handle. -/
theorem c3_witness :
    (run_ssr_calls 3 (RenderHandleState.new cfgW rootW)).2.2 = 1 ∧
    (run_ssr_calls 3 (RenderHandleState.new cfgW rootW)).1 =
      List.replicate 3 (SsrRenderer.shared cfgW.incremental) ∧
    (run_ssr_calls 3 (RenderHandleState.new cfgW rootW)).2.1.ssr_state_cell =
      ⟨some (SsrRenderer.shared cfgW.incremental)⟩ :=
  c3_once_init cfgW rootW 3 (by decide)

/-- Claim C8, evidence of the code slip.  Calling `with_ssr_state` on a
handle whose engine is already initialized does not reach the fatal
branch: because the field is reset to a fresh empty cell immediately
before `set`, the `set` always succeeds, so the already-stored engine is
silently replaced and the `SSRState already set` abort is dead code. -/
theorem c8_no_abort_silent_replace :
    presetHandle.ssr_state_cell = ⟨some engOld⟩ ∧
    presetHandle.with_ssr_state engNew =
      Except.ok ⟨cfgW, rootW, ⟨some engNew⟩⟩ :=
  ⟨rfl, rfl⟩
